import Mathlib

/-!
Shallow embedding of the Port Registry Service (src/server.py) and proofs
about its allocation logic.

Modelling conventions:
* The persisted JSON document (`registry.json`) is the structure
  `RegistryState`: the `services` dict becomes an association list that keeps
  Python dict insertion order, and the optional `next_available` key becomes
  an `Option Nat` (`none` models an absent key).
* `port_in_use` performs a TCP connect; it is modelled as an oracle
  `prober : Nat → Bool` passed to each operation (one fixed answer per port
  for the duration of one request, matching a single lock-protected call).
* The `while` loop of `find_next_free` has no upper bound in the source, so
  it is embedded with explicit fuel; `none` models divergence of the loop.
  Since the source never saves the registry while looping, a diverging call
  leaves the persisted state unchanged, which the embedding mirrors by
  returning the input state alongside `none`.
* `load()`/`save()` are modelled as pure state passing: each operation maps
  the persisted state before the call to the persisted state after it.
-/

/-- One value of the `services` dict of `registry.json`: the keys written by
`request_port` are `port`, `project` and `description`. -/
structure AllocationRecord where
  port : Nat
  project : String
  description : String
deriving Repr, DecidableEq

/-- The whole persisted document: the `services` mapping (insertion ordered,
like a Python dict) and the optional `next_available` hint. -/
structure RegistryState where
  services : List (String × AllocationRecord)
  next_available : Option Nat
deriving Repr, DecidableEq

/-- The body of `POST /ports/request` (pydantic model `RequestBody`). -/
structure RequestBody where
  service : String
  project : String
  description : String
  preferred_port : Option Nat
deriving Repr, DecidableEq

/-- Result of a `request_port` call.  `conflictOwned` is the HTTP 409 whose
detail names the owning service, `conflictExternal` the HTTP 409 blaming a
process outside the registry, and `ok` the JSON success response with its
`port`, `service` and `assigned_now` fields. -/
inductive ReqResult where
  | conflictOwned (port : Nat) (owner : String)
  | conflictExternal (port : Nat)
  | ok (port : Nat) (service : String) (assigned_now : Bool)
deriving Repr, DecidableEq

/-- Result of a `release_port` call: the HTTP 404, or the success response
carrying the released service and its former port. -/
inductive RelResult where
  | notFound
  | released (service : String) (port : Nat)
deriving Repr, DecidableEq

/-- Python dict lookup `d[k]` / membership `k in d` on the embedded dict. -/
def dictLookup (k : String) : List (String × AllocationRecord) → Option AllocationRecord
  | [] => none
  | (k2, v) :: rest => if k2 = k then some v else dictLookup k rest

/-- Python dict assignment `d[k] = v`: replaces the value at `k` in place, or
appends a new entry at the end when the key is absent. -/
def dictInsert (k : String) (v : AllocationRecord) :
    List (String × AllocationRecord) → List (String × AllocationRecord)
  | [] => [(k, v)]
  | (k2, v2) :: rest => if k2 = k then (k, v) :: rest else (k2, v2) :: dictInsert k v rest

/-- Python dict removal `d.pop(k)` (only called when `k` is present): drops
the entry with key `k`. -/
def dictRemove (k : String) :
    List (String × AllocationRecord) → List (String × AllocationRecord)
  | [] => []
  | (k2, v2) :: rest => if k2 = k then rest else (k2, v2) :: dictRemove k rest

/-- The set `{v["port"] for v in data["services"].values()}`, as a list. -/
def portsOf (services : List (String × AllocationRecord)) : List Nat :=
  services.map (fun kv => kv.2.port)

/-- Keys of the services dict. -/
def keysOf (services : List (String × AllocationRecord)) : List String :=
  services.map (fun kv => kv.1)

/-- Membership test of a port in the used set. -/
def memNat (p : Nat) : List Nat → Bool
  | [] => false
  | q :: rest => if q = p then true else memNat p rest

/-- The `while port in used or port_in_use(port): port += 1` loop of
`find_next_free`, with fuel; `none` models the loop running forever. -/
def searchFree (prober : Nat → Bool) (used : List Nat) : Nat → Nat → Option Nat
  | _, 0 => none
  | port, fuel + 1 =>
    if memNat port used || prober port then searchFree prober used (port + 1) fuel
    else some port

/-- The value of `data.get("next_available", 8002)`. -/
def nextHint (data : RegistryState) : Nat := data.next_available.getD 8002

/-- Embedding of `find_next_free(data, start)`.  The line
`start = start or data.get("next_available", 8002)` uses Python truthiness:
a missing argument and a zero argument both fall back to the stored hint
(or to 8002 when the key is absent). -/
def find_next_free (prober : Nat → Bool) (fuel : Nat) (data : RegistryState)
    (start : Option Nat) : Option Nat :=
  let start2 := match start with
    | some s => if s = 0 then nextHint data else s
    | none => nextHint data
  searchFree prober (portsOf data.services) start2 fuel

/-- The generator expression
`next(k for k, v in services.items() if v["port"] == p)` guarded by the
membership test `p in used`: returns the first service owning port `p`,
or `none` exactly when no record holds `p`. -/
def findOwner (p : Nat) : List (String × AllocationRecord) → Option String
  | [] => none
  | (k, v) :: rest => if v.port = p then some k else findOwner p rest

/-- Python truthiness of the optional `preferred_port` field:
`if body.preferred_port:` is taken only for a present, nonzero value. -/
def truthyOpt : Option Nat → Bool
  | none => false
  | some p => decide (p ≠ 0)

/-- Lines 176-190 of `request_port`: store the new record, recompute
`next_available` as `find_next_free(data, assigned_port + 1)` on the updated
dict, save, and answer with `assigned_now = True`.  When the recomputation
diverges (`none`), `save` is never reached, so the persisted state stays the
input state. -/
def registerNew (prober : Nat → Bool) (fuel : Nat) (data : RegistryState)
    (body : RequestBody) (assigned : Nat) : Option ReqResult × RegistryState :=
  let services2 := dictInsert body.service
    ⟨assigned, body.project, body.description⟩ data.services
  match find_next_free prober fuel ⟨services2, data.next_available⟩ (some (assigned + 1)) with
  | none => (none, data)
  | some nxt => (some (.ok assigned body.service true), ⟨services2, some nxt⟩)

/-- Embedding of `POST /ports/request` (`request_port`): sticky return for a
registered service; preferred-port validation against the records and the
prober; otherwise the unconstrained search.  The state component is the
persisted state after the call. -/
def request_port (prober : Nat → Bool) (fuel : Nat) (data : RegistryState)
    (body : RequestBody) : Option ReqResult × RegistryState :=
  match dictLookup body.service data.services with
  | some existing => (some (.ok existing.port body.service false), data)
  | none =>
    if truthyOpt body.preferred_port then
      let p := body.preferred_port.getD 0
      match findOwner p data.services with
      | some owner => (some (.conflictOwned p owner), data)
      | none =>
        if prober p then (some (.conflictExternal p), data)
        else registerNew prober fuel data body p
    else
      match find_next_free prober fuel data none with
      | none => (none, data)
      | some p => registerNew prober fuel data body p

/-- Embedding of `POST /ports/release` (`release_port`). -/
def release_port (data : RegistryState) (service : String) :
    RelResult × RegistryState :=
  match dictLookup service data.services with
  | none => (.notFound, data)
  | some rec =>
    (.released service rec.port, ⟨dictRemove service data.services, data.next_available⟩)

/-- One state-mutating operation of the registry service, with the prober
answers and the fuel observed during that call. -/
inductive Op where
  | req (prober : Nat → Bool) (fuel : Nat) (body : RequestBody)
  | rel (service : String)

/-- The persisted state after one operation. -/
def applyOp (s : RegistryState) : Op → RegistryState
  | .req prober fuel body => (request_port prober fuel s body).2
  | .rel service => (release_port s service).2

/-- The persisted state after a sequence of operations. -/
def applyOps (s : RegistryState) (ops : List Op) : RegistryState :=
  ops.foldl applyOp s

/-- Reachability from a valid initial state: an empty services dict (the
fresh registry document), with any stored hint, followed by any sequence of
`request_port` / `release_port` calls. -/
def Reachable (s : RegistryState) : Prop :=
  ∃ (hint : Option Nat) (ops : List Op), applyOps ⟨[], hint⟩ ops = s

/-- A port is free with respect to a services dict and the prober: recorded
by no service and reported not live. -/
def freePort (prober : Nat → Bool) (services : List (String × AllocationRecord))
    (q : Nat) : Bool :=
  !memNat q (portsOf services) && !prober q

/-- A `request_port` outcome that is not a success response: a conflict, or
divergence of the search loop. -/
def isOk : Option ReqResult → Bool
  | some (.ok _ _ _) => true
  | _ => false

/-! ### Dictionary lemmas -/

theorem dictLookup_insert_self (k : String) (v : AllocationRecord)
    (l : List (String × AllocationRecord)) :
    dictLookup k (dictInsert k v l) = some v := by
  induction l with
  | nil => simp [dictInsert, dictLookup]
  | cons kv rest ih =>
    obtain ⟨k2, v2⟩ := kv
    by_cases h : k2 = k
    · simp [dictInsert, dictLookup, h]
    · simp [dictInsert, dictLookup, h, ih]

theorem dictLookup_insert_ne (k2 k : String) (v : AllocationRecord)
    (l : List (String × AllocationRecord)) (h : k2 ≠ k) :
    dictLookup k2 (dictInsert k v l) = dictLookup k2 l := by
  have h2 : ¬k = k2 := fun e => h e.symm
  induction l with
  | nil => simp [dictInsert, dictLookup, h2]
  | cons kv rest ih =>
    obtain ⟨k3, v3⟩ := kv
    by_cases hk : k3 = k
    · subst hk
      simp [dictInsert, dictLookup, h2]
    · simp only [dictInsert, if_neg hk, dictLookup]
      by_cases hk2 : k3 = k2
      · simp [hk2]
      · simp [hk2, ih]

theorem dictLookup_remove_ne (k2 k : String)
    (l : List (String × AllocationRecord)) (h : k2 ≠ k) :
    dictLookup k2 (dictRemove k l) = dictLookup k2 l := by
  have h2 : ¬k = k2 := fun e => h e.symm
  induction l with
  | nil => simp [dictRemove, dictLookup]
  | cons kv rest ih =>
    obtain ⟨k3, v3⟩ := kv
    by_cases hk : k3 = k
    · subst hk
      simp [dictRemove, dictLookup, h2]
    · simp only [dictRemove, if_neg hk, dictLookup]
      by_cases hk2 : k3 = k2
      · simp [hk2]
      · simp [hk2, ih]

theorem dictLookup_none_iff (k : String) (l : List (String × AllocationRecord)) :
    dictLookup k l = none ↔ k ∉ keysOf l := by
  induction l with
  | nil => simp [dictLookup, keysOf]
  | cons kv rest ih =>
    obtain ⟨k2, v2⟩ := kv
    by_cases h : k2 = k
    · simp [dictLookup, keysOf, h]
    · have h2 : ¬k = k2 := fun e => h e.symm
      simp [dictLookup, keysOf, h, h2] at ih ⊢
      simpa [keysOf] using ih

theorem dictLookup_remove_self (k : String)
    (l : List (String × AllocationRecord)) (h : (keysOf l).Nodup) :
    dictLookup k (dictRemove k l) = none := by
  induction l with
  | nil => simp [dictRemove, dictLookup]
  | cons kv rest ih =>
    obtain ⟨k2, v2⟩ := kv
    simp only [keysOf, List.map_cons, List.nodup_cons] at h
    by_cases hk : k2 = k
    · subst hk
      rw [dictRemove, if_pos rfl, dictLookup_none_iff]
      simpa [keysOf] using h.1
    · simp only [dictRemove, if_neg hk, dictLookup, if_neg hk]
      exact ih (by simpa [keysOf] using h.2)

theorem dictInsert_fresh (k : String) (v : AllocationRecord)
    (l : List (String × AllocationRecord)) (h : dictLookup k l = none) :
    dictInsert k v l = l ++ [(k, v)] := by
  induction l with
  | nil => simp [dictInsert]
  | cons kv rest ih =>
    obtain ⟨k2, v2⟩ := kv
    simp only [dictLookup] at h
    by_cases hk : k2 = k
    · simp [hk] at h
    · simp only [if_neg hk] at h
      simp [dictInsert, if_neg hk, ih h]

theorem dictRemove_sublist (k : String) (l : List (String × AllocationRecord)) :
    (dictRemove k l).Sublist l := by
  induction l with
  | nil => simp [dictRemove]
  | cons kv rest ih =>
    obtain ⟨k2, v2⟩ := kv
    by_cases hk : k2 = k
    · simp only [dictRemove, if_pos hk]
      exact List.sublist_cons_self (k2, v2) rest
    · simp only [dictRemove, if_neg hk]
      exact ih.cons₂ (k2, v2)

theorem dictLookup_port_mem (a : String) (ra : AllocationRecord)
    (l : List (String × AllocationRecord)) (h : dictLookup a l = some ra) :
    ra.port ∈ portsOf l := by
  induction l with
  | nil => simp [dictLookup] at h
  | cons kv rest ih =>
    obtain ⟨k2, v2⟩ := kv
    simp only [dictLookup] at h
    by_cases hk : k2 = a
    · simp only [if_pos hk, Option.some_inj] at h
      simp [portsOf, ← h]
    · simp only [if_neg hk] at h
      simp only [portsOf, List.map_cons, List.mem_cons]
      right
      simpa [portsOf] using ih h

theorem memNat_iff (p : Nat) (l : List Nat) : memNat p l = true ↔ p ∈ l := by
  induction l with
  | nil => simp [memNat]
  | cons q rest ih =>
    by_cases h : q = p
    · simp [memNat, h]
    · have h2 : ¬p = q := fun e => h e.symm
      simp [memNat, h, h2, ih]

theorem findOwner_none_iff (p : Nat) (l : List (String × AllocationRecord)) :
    findOwner p l = none ↔ p ∉ portsOf l := by
  induction l with
  | nil => simp [findOwner, portsOf]
  | cons kv rest ih =>
    obtain ⟨k2, v2⟩ := kv
    by_cases h : v2.port = p
    · simp [findOwner, h, portsOf]
    · have h2 : ¬p = v2.port := fun e => h e.symm
      simp [findOwner, h, h2, portsOf] at ih ⊢
      simpa [portsOf] using ih

theorem findOwner_some_mem (p : Nat) (owner : String)
    (l : List (String × AllocationRecord)) (h : findOwner p l = some owner) :
    ∃ rec, (owner, rec) ∈ l ∧ rec.port = p := by
  induction l with
  | nil => simp [findOwner] at h
  | cons kv rest ih =>
    obtain ⟨k2, v2⟩ := kv
    simp only [findOwner] at h
    by_cases hp : v2.port = p
    · simp only [if_pos hp, Option.some_inj] at h
      exact ⟨v2, by simp [h], hp⟩
    · simp only [if_neg hp] at h
      obtain ⟨rec, hmem, hrec⟩ := ih h
      exact ⟨rec, by simp [hmem], hrec⟩

theorem nodup_snoc {α : Type} (l : List α) (a : α) (h : l.Nodup) (ha : a ∉ l) :
    (l ++ [a]).Nodup := by
  induction l with
  | nil => simp
  | cons b rest ih =>
    simp only [List.nodup_cons] at h
    simp only [List.mem_cons] at ha
    push_neg at ha
    simp only [List.cons_append, List.nodup_cons]
    refine ⟨?_, ih h.2 ha.2⟩
    simp only [List.mem_append, List.mem_singleton]
    rintro (hb | hb)
    · exact h.1 hb
    · exact ha.1 hb.symm

/-! ### Search-loop lemmas -/

theorem searchFree_some (prober : Nat → Bool) (used : List Nat) :
    ∀ (start fuel p : Nat), searchFree prober used start fuel = some p →
      start ≤ p ∧ memNat p used = false ∧ prober p = false := by
  intro start fuel
  induction fuel generalizing start with
  | zero => intro p h; simp [searchFree] at h
  | succ n ih =>
    intro p h
    simp only [searchFree] at h
    by_cases hc : (memNat start used || prober start) = true
    · rw [if_pos hc] at h
      obtain ⟨h1, h2, h3⟩ := ih (start + 1) p h
      exact ⟨Nat.le_of_succ_le h1, h2, h3⟩
    · rw [if_neg hc] at h
      simp only [Option.some_inj] at h
      subst h
      simp only [Bool.or_eq_true, not_or, Bool.not_eq_true] at hc
      exact ⟨Nat.le_refl start, hc.1, hc.2⟩

theorem searchFree_least (prober : Nat → Bool) (used : List Nat) :
    ∀ (start fuel p : Nat), searchFree prober used start fuel = some p →
      ∀ q, start ≤ q → q < p → (memNat q used || prober q) = true := by
  intro start fuel
  induction fuel generalizing start with
  | zero => intro p h; simp [searchFree] at h
  | succ n ih =>
    intro p h q hq1 hq2
    simp only [searchFree] at h
    by_cases hc : (memNat start used || prober start) = true
    · rw [if_pos hc] at h
      rcases Nat.eq_or_lt_of_le hq1 with heq | hlt
      · subst heq; exact hc
      · exact ih (start + 1) p h q hlt hq2
    · rw [if_neg hc] at h
      simp only [Option.some_inj] at h
      subst h
      exact absurd hq2 (Nat.not_lt_of_le hq1)

theorem find_next_free_start_pos (prober : Nat → Bool) (fuel : Nat)
    (data : RegistryState) (a : Nat) :
    find_next_free prober fuel data (some (a + 1)) =
      searchFree prober (portsOf data.services) (a + 1) fuel := by
  simp [find_next_free]

theorem find_next_free_start_none (prober : Nat → Bool) (fuel : Nat)
    (data : RegistryState) :
    find_next_free prober fuel data none =
      searchFree prober (portsOf data.services) (nextHint data) fuel := rfl

/-! ### Characterizations of `request_port` outcomes -/

theorem registerNew_none (prober : Nat → Bool) (fuel : Nat) (data : RegistryState)
    (body : RequestBody) (assigned : Nat) (s2 : RegistryState)
    (h : registerNew prober fuel data body assigned = (none, s2)) : s2 = data := by
  simp only [registerNew] at h
  split at h
  · exact (Prod.mk.injEq _ _ _ _ ▸ h).2.symm
  · simp at h

theorem registerNew_some (prober : Nat → Bool) (fuel : Nat) (data : RegistryState)
    (body : RequestBody) (assigned : Nat) (r : ReqResult) (s2 : RegistryState)
    (h : registerNew prober fuel data body assigned = (some r, s2)) :
    r = .ok assigned body.service true ∧
    s2.services = dictInsert body.service
      ⟨assigned, body.project, body.description⟩ data.services ∧
    ∃ nxt, s2.next_available = some nxt ∧
      searchFree prober (portsOf s2.services) (assigned + 1) fuel = some nxt := by
  simp only [registerNew, find_next_free_start_pos] at h
  split at h
  · simp at h
  · rename_i nxt hnxt
    obtain ⟨h1, h2⟩ := Prod.mk.injEq _ _ _ _ ▸ h
    simp only [Option.some_inj] at h1
    subst h1
    subst h2
    exact ⟨rfl, rfl, nxt, rfl, hnxt⟩

theorem request_port_sticky_eq (prober : Nat → Bool) (fuel : Nat)
    (data : RegistryState) (body : RequestBody) (rec : AllocationRecord)
    (hreg : dictLookup body.service data.services = some rec) :
    request_port prober fuel data body =
      (some (.ok rec.port body.service false), data) := by
  simp [request_port, hreg]

theorem request_port_unconstrained_eq (prober : Nat → Bool) (fuel : Nat)
    (data : RegistryState) (body : RequestBody)
    (hpref : truthyOpt body.preferred_port = false)
    (hun : dictLookup body.service data.services = none) :
    request_port prober fuel data body =
      match find_next_free prober fuel data none with
      | none => (none, data)
      | some p => registerNew prober fuel data body p := by
  simp [request_port, hun, hpref]

theorem request_port_preferred_eq (prober : Nat → Bool) (fuel : Nat)
    (data : RegistryState) (body : RequestBody) (p : Nat)
    (hp : body.preferred_port = some p) (hp0 : p ≠ 0)
    (hun : dictLookup body.service data.services = none) :
    request_port prober fuel data body =
      match findOwner p data.services with
      | some owner => (some (.conflictOwned p owner), data)
      | none =>
        if prober p then (some (.conflictExternal p), data)
        else registerNew prober fuel data body p := by
  simp [request_port, hun, hp, truthyOpt, hp0]

theorem request_port_ok_inv (prober : Nat → Bool) (fuel : Nat)
    (data : RegistryState) (body : RequestBody) (p : Nat) (svc : String)
    (now : Bool) (s2 : RegistryState)
    (h : request_port prober fuel data body = (some (.ok p svc now), s2)) :
    svc = body.service ∧
    ((∃ rec, dictLookup body.service data.services = some rec ∧
        p = rec.port ∧ now = false ∧ s2 = data) ∨
     (dictLookup body.service data.services = none ∧ now = true ∧
      s2.services = dictInsert body.service
        ⟨p, body.project, body.description⟩ data.services ∧
      ∃ nxt, s2.next_available = some nxt ∧
        searchFree prober (portsOf s2.services) (p + 1) fuel = some nxt)) := by
  simp only [request_port] at h
  split at h
  · rename_i rec hrec
    obtain ⟨h1, h2⟩ := Prod.mk.injEq _ _ _ _ ▸ h
    simp only [Option.some_inj, ReqResult.ok.injEq] at h1
    obtain ⟨hp, hsvc, hnow⟩ := h1
    exact ⟨hsvc.symm, Or.inl ⟨rec, hrec, hp.symm, hnow.symm, h2.symm⟩⟩
  · rename_i hun
    split at h
    · split at h
      · simp at h
      · split at h
        · simp at h
        · have hr := registerNew_some _ _ _ _ _ _ _ h
          obtain ⟨hok, hserv, nxt, hna, hsf⟩ := hr
          simp only [ReqResult.ok.injEq] at hok
          obtain ⟨hp, hsvc, hnow⟩ := hok
          subst hp; subst hsvc; subst hnow
          exact ⟨rfl, Or.inr ⟨hun, rfl, hserv, nxt, hna, hsf⟩⟩
    · split at h
      · simp at h
      · have hr := registerNew_some _ _ _ _ _ _ _ h
        obtain ⟨hok, hserv, nxt, hna, hsf⟩ := hr
        simp only [ReqResult.ok.injEq] at hok
        obtain ⟨hp, hsvc, hnow⟩ := hok
        subst hp; subst hsvc; subst hnow
        exact ⟨rfl, Or.inr ⟨hun, rfl, hserv, nxt, hna, hsf⟩⟩

theorem request_port_fail_state (prober : Nat → Bool) (fuel : Nat)
    (data : RegistryState) (body : RequestBody) (res : Option ReqResult)
    (s2 : RegistryState)
    (h : request_port prober fuel data body = (res, s2))
    (hres : isOk res = false) : s2 = data := by
  simp only [request_port] at h
  split at h
  · obtain ⟨h1, h2⟩ := Prod.mk.injEq _ _ _ _ ▸ h
    subst h1
    simp [isOk] at hres
  · split at h
    · split at h
      · obtain ⟨h1, h2⟩ := Prod.mk.injEq _ _ _ _ ▸ h
        exact h2.symm
      · split at h
        · obtain ⟨h1, h2⟩ := Prod.mk.injEq _ _ _ _ ▸ h
          exact h2.symm
        · cases res with
          | none => exact registerNew_none _ _ _ _ _ _ h
          | some r =>
            cases r with
            | ok q svc now => simp [isOk] at hres
            | conflictOwned q o =>
              have := (registerNew_some _ _ _ _ _ _ _ h).1
              simp at this
            | conflictExternal q =>
              have := (registerNew_some _ _ _ _ _ _ _ h).1
              simp at this
    · split at h
      · obtain ⟨h1, h2⟩ := Prod.mk.injEq _ _ _ _ ▸ h
        exact h2.symm
      · cases res with
        | none => exact registerNew_none _ _ _ _ _ _ h
        | some r =>
          cases r with
          | ok q svc now => simp [isOk] at hres
          | conflictOwned q o =>
            have := (registerNew_some _ _ _ _ _ _ _ h).1
            simp at this
          | conflictExternal q =>
            have := (registerNew_some _ _ _ _ _ _ _ h).1
            simp at this

theorem request_port_state_cases (prober : Nat → Bool) (fuel : Nat)
    (s : RegistryState) (body : RequestBody) :
    (request_port prober fuel s body).2 = s ∨
    (dictLookup body.service s.services = none ∧
     ∃ p nxt, memNat p (portsOf s.services) = false ∧
       (request_port prober fuel s body).2 =
         ⟨dictInsert body.service ⟨p, body.project, body.description⟩ s.services,
          some nxt⟩) := by
  simp only [request_port]
  split
  · left; rfl
  · rename_i hun
    split
    · split
      · left; rfl
      · rename_i hown
        split
        · left; rfl
        · have hfree : memNat (body.preferred_port.getD 0) (portsOf s.services) = false := by
            simp only [← Bool.not_eq_true, memNat_iff]
            exact (findOwner_none_iff _ _).mp hown
          simp only [registerNew]
          split
          · left; rfl
          · rename_i nxt hnxt
            right
            exact ⟨hun, _, nxt, hfree, rfl⟩
    · split
      · left; rfl
      · rename_i p hfind
        have hs := searchFree_some prober (portsOf s.services) (nextHint s) fuel p
          (by simpa [find_next_free_start_none] using hfind)
        simp only [registerNew]
        split
        · left; rfl
        · rename_i nxt hnxt
          right
          exact ⟨hun, p, nxt, hs.2.1, rfl⟩

/-- The well-formedness invariant of the registry document: distinct service
keys (a Python dict guarantee) and pairwise-distinct recorded ports. -/
def RegistryInv (s : RegistryState) : Prop :=
  (keysOf s.services).Nodup ∧ (portsOf s.services).Nodup

theorem RegistryInv_request (prober : Nat → Bool) (fuel : Nat) (s : RegistryState)
    (body : RequestBody) (h : RegistryInv s) : RegistryInv (request_port prober fuel s body).2 := by
  rcases request_port_state_cases prober fuel s body with heq | ⟨hun, p, nxt, hfree, heq⟩
  · rw [heq]; exact h
  · rw [heq]
    have hins := dictInsert_fresh body.service
      ⟨p, body.project, body.description⟩ s.services hun
    constructor
    · have hkeys : keysOf (dictInsert body.service
          ⟨p, body.project, body.description⟩ s.services) =
          keysOf s.services ++ [body.service] := by
        rw [hins]; simp [keysOf]
      rw [hkeys]
      exact nodup_snoc _ _ h.1 ((dictLookup_none_iff _ _).mp hun)
    · have hports : portsOf (dictInsert body.service
          ⟨p, body.project, body.description⟩ s.services) =
          portsOf s.services ++ [p] := by
        rw [hins]; simp [portsOf]
      rw [hports]
      refine nodup_snoc _ _ h.2 (fun hmem => ?_)
      rw [← memNat_iff] at hmem
      simp [hfree] at hmem

theorem RegistryInv_release (s : RegistryState) (svc : String) (h : RegistryInv s) :
    RegistryInv (release_port s svc).2 := by
  simp only [release_port]
  split
  · exact h
  · constructor
    · exact ((dictRemove_sublist svc s.services).map _).nodup h.1
    · exact ((dictRemove_sublist svc s.services).map _).nodup h.2

theorem RegistryInv_applyOp (s : RegistryState) (op : Op) (h : RegistryInv s) :
    RegistryInv (applyOp s op) := by
  cases op with
  | req prober fuel body => exact RegistryInv_request prober fuel s body h
  | rel svc => exact RegistryInv_release s svc h

theorem RegistryInv_applyOps (s : RegistryState) (ops : List Op) (h : RegistryInv s) :
    RegistryInv (applyOps s ops) := by
  induction ops generalizing s with
  | nil => exact h
  | cons op rest ih => exact ih _ (RegistryInv_applyOp s op h)

theorem RegistryInv_reachable (s : RegistryState) (h : Reachable s) : RegistryInv s := by
  obtain ⟨hint, ops, hops⟩ := h
  rw [← hops]
  exact RegistryInv_applyOps _ ops (by constructor <;> simp [keysOf, portsOf])

theorem nodup_ports_lookup_inj (l : List (String × AllocationRecord))
    (hnd : (portsOf l).Nodup) (a b : String) (ra rb : AllocationRecord)
    (ha : dictLookup a l = some ra) (hb : dictLookup b l = some rb)
    (hport : ra.port = rb.port) : a = b := by
  induction l with
  | nil => simp [dictLookup] at ha
  | cons kv rest ih =>
    obtain ⟨k, v⟩ := kv
    simp only [dictLookup] at ha hb
    simp only [portsOf, List.map_cons, List.nodup_cons] at hnd
    by_cases hka : k = a
    · by_cases hkb : k = b
      · rw [← hka, hkb]
      · rw [if_pos hka] at ha
        rw [if_neg hkb] at hb
        exfalso
        apply hnd.1
        have hmem := dictLookup_port_mem b rb rest hb
        have hv : v.port = rb.port := by
          rw [← hport, ← Option.some_inj.mp ha]
        rw [hv]
        simpa [portsOf] using hmem
    · by_cases hkb : k = b
      · rw [if_neg hka] at ha
        rw [if_pos hkb] at hb
        exfalso
        apply hnd.1
        have hmem := dictLookup_port_mem a ra rest ha
        have hv : v.port = ra.port := by
          rw [hport, ← Option.some_inj.mp hb]
        rw [hv]
        simpa [portsOf] using hmem
      · rw [if_neg hka] at ha
        rw [if_neg hkb] at hb
        exact ih (by simpa [portsOf] using hnd.2) ha hb

/-! ### Record preservation across operations -/

/-- Operations that do not release the given service. -/
def noReleaseOf (svc : String) : Op → Prop
  | .req _ _ _ => True
  | .rel t => t ≠ svc

theorem lookup_preserved_req (prober : Nat → Bool) (fuel : Nat)
    (s : RegistryState) (body : RequestBody) (svc : String)
    (rec : AllocationRecord) (h : dictLookup svc s.services = some rec) :
    dictLookup svc (request_port prober fuel s body).2.services = some rec := by
  by_cases hsvc : body.service = svc
  · subst hsvc
    rw [request_port_sticky_eq prober fuel s body rec h]
    exact h
  · rcases request_port_state_cases prober fuel s body with heq | ⟨hun, p, nxt, hfree, heq⟩
    · rw [heq]; exact h
    · rw [heq]
      show dictLookup svc (dictInsert body.service
        ⟨p, body.project, body.description⟩ s.services) = some rec
      rw [dictLookup_insert_ne svc body.service _ s.services (fun e => hsvc e.symm)]
      exact h

theorem lookup_preserved_rel (s : RegistryState) (t svc : String)
    (rec : AllocationRecord) (ht : t ≠ svc)
    (h : dictLookup svc s.services = some rec) :
    dictLookup svc (release_port s t).2.services = some rec := by
  cases h2 : dictLookup t s.services with
  | none => simp only [release_port, h2]; exact h
  | some r2 =>
    simp only [release_port, h2]
    show dictLookup svc (dictRemove t s.services) = some rec
    rw [dictLookup_remove_ne svc t s.services (fun e => ht e.symm)]
    exact h

theorem lookup_preserved_ops (s : RegistryState) (ops : List Op) (svc : String)
    (rec : AllocationRecord) (hops : ∀ op ∈ ops, noReleaseOf svc op)
    (h : dictLookup svc s.services = some rec) :
    dictLookup svc (applyOps s ops).services = some rec := by
  induction ops generalizing s with
  | nil => exact h
  | cons op rest ih =>
    have hop := hops op (List.mem_cons_self op rest)
    have hrest : ∀ op2 ∈ rest, noReleaseOf svc op2 :=
      fun op2 hm => hops op2 (List.mem_cons_of_mem op hm)
    apply ih _ hrest
    cases op with
    | req prober fuel body => exact lookup_preserved_req prober fuel s body svc rec h
    | rel t => exact lookup_preserved_rel s t svc rec hop h

/-! ### The unconstrained-search branch, characterized -/

theorem unconstrained_ok_char (prober : Nat → Bool) (fuel : Nat)
    (s : RegistryState) (body : RequestBody) (r : ReqResult) (s2 : RegistryState)
    (hpref : truthyOpt body.preferred_port = false)
    (hun : dictLookup body.service s.services = none)
    (h : request_port prober fuel s body = (some r, s2)) :
    ∃ p, r = .ok p body.service true ∧
      nextHint s ≤ p ∧ freePort prober s.services p = true ∧
      ∀ q, nextHint s ≤ q → q < p → freePort prober s.services q = false := by
  rw [request_port_unconstrained_eq prober fuel s body hpref hun] at h
  cases hf : find_next_free prober fuel s none with
  | none => rw [hf] at h; simp at h
  | some p =>
    rw [hf] at h
    have hsf : searchFree prober (portsOf s.services) (nextHint s) fuel = some p := by
      rw [← find_next_free_start_none]; exact hf
    have h1 := searchFree_some prober (portsOf s.services) (nextHint s) fuel p hsf
    have h2 := searchFree_least prober (portsOf s.services) (nextHint s) fuel p hsf
    have hreg := registerNew_some prober fuel s body p r s2 h
    refine ⟨p, hreg.1, h1.1, by simp [freePort, h1.2.1, h1.2.2], ?_⟩
    intro q hq1 hq2
    have hq := h2 q hq1 hq2
    cases hmem : memNat q (portsOf s.services) <;>
      cases hpq : prober q <;> simp_all [freePort]

/-! ### Concrete fixtures used by witnesses -/

/-- A prober that reports every port as not live. -/
def allFree : Nat → Bool := fun _ => false

/-- A small concrete registry with two registered services. -/
def exampleState : RegistryState :=
  ⟨[("a", ⟨8002, "p", ""⟩), ("b", ⟨8003, "q", ""⟩)], some 8004⟩

/-! ### Claims -/

/-- C1: in every state reachable from a valid (empty-services) initial state
by any sequence of `request_port` and `release_port` operations, no two
distinct registered services hold the same port: the service-to-port mapping
of the services table is injective. -/
theorem C1_port_uniqueness (s : RegistryState) (hs : Reachable s)
    (a b : String) (ra rb : AllocationRecord)
    (ha : dictLookup a s.services = some ra)
    (hb : dictLookup b s.services = some rb)
    (hport : ra.port = rb.port) : a = b :=
  nodup_ports_lookup_inj s.services (RegistryInv_reachable s hs).2 a b ra rb ha hb hport

theorem C1_port_uniqueness_witness : ("api" : String) = "api" :=
  C1_port_uniqueness ⟨[("api", ⟨8002, "proj", ""⟩)], some 8003⟩
    ⟨some 8002, [Op.req allFree 2 ⟨"api", "proj", "", none⟩], by decide⟩
    "api" "api" ⟨8002, "proj", ""⟩ ⟨8002, "proj", ""⟩ (by decide) (by decide) rfl

/-- C2: after a `request_port` call for a service answered with a port, any
further `request_port` for the same service — with no intervening release of
that service, but any other operations in between — returns the same port,
reports `assigned_now = false`, and leaves the persisted state unchanged. -/
theorem C2_sticky_twice (prober1 prober2 : Nat → Bool) (fuel1 fuel2 : Nat)
    (s0 s1 : RegistryState) (b1 b2 : RequestBody) (ops : List Op)
    (p : Nat) (now : Bool)
    (h1 : request_port prober1 fuel1 s0 b1 = (some (.ok p b1.service now), s1))
    (hops : ∀ op ∈ ops, noReleaseOf b1.service op)
    (hsvc : b2.service = b1.service) :
    request_port prober2 fuel2 (applyOps s1 ops) b2 =
      (some (.ok p b2.service false), applyOps s1 ops) := by
  obtain ⟨-, hcases⟩ := request_port_ok_inv prober1 fuel1 s0 b1 p b1.service now s1 h1
  have hrec : ∃ rec, dictLookup b1.service s1.services = some rec ∧ rec.port = p := by
    rcases hcases with ⟨rec, hlook, hp, hnow, hs⟩ | ⟨hun, hnow, hserv, nxt, hna, hsf⟩
    · subst hs; exact ⟨rec, hlook, hp.symm⟩
    · refine ⟨⟨p, b1.project, b1.description⟩, ?_, rfl⟩
      rw [hserv]
      exact dictLookup_insert_self _ _ _
  obtain ⟨rec, hlook, hp⟩ := hrec
  have hpres := lookup_preserved_ops s1 ops b1.service rec hops hlook
  have hreg : dictLookup b2.service (applyOps s1 ops).services = some rec := by
    rw [hsvc]; exact hpres
  rw [request_port_sticky_eq prober2 fuel2 (applyOps s1 ops) b2 rec hreg, hp]

theorem C2_sticky_twice_witness :
    request_port allFree 2 ⟨[("api", ⟨8002, "proj", ""⟩)], some 8003⟩
        ⟨"api", "proj", "", none⟩ =
      (some (.ok 8002 "api" false), ⟨[("api", ⟨8002, "proj", ""⟩)], some 8003⟩) :=
  C2_sticky_twice allFree allFree 2 2 ⟨[], some 8002⟩
    ⟨[("api", ⟨8002, "proj", ""⟩)], some 8003⟩
    ⟨"api", "proj", "", none⟩ ⟨"api", "proj", "", none⟩ [] 8002 true
    (by decide) (by simp) rfl

/-- C8: every failed `request_port` call — a conflict response or a diverging
search — leaves the persisted store exactly as it was before the call. -/
theorem C8_failure_atomic (prober : Nat → Bool) (fuel : Nat) (s : RegistryState)
    (body : RequestBody) (res : Option ReqResult) (s2 : RegistryState)
    (h : request_port prober fuel s body = (res, s2))
    (hfail : isOk res = false) : s2 = s :=
  request_port_fail_state prober fuel s body res s2 h hfail

theorem C8_failure_atomic_witness : exampleState = exampleState :=
  C8_failure_atomic allFree 1 exampleState ⟨"c", "q", "", some 8002⟩
    (some (.conflictOwned 8002 "a")) exampleState (by decide) (by decide)

/-- C9: `release_port` answers NOT_FOUND exactly when the service has no
record, leaving the state unchanged; when a record exists it removes only
that record, returns the former port, keeps `next_available` and every other
service's record, and a second release of the same service answers
NOT_FOUND. -/
theorem C9_release_behavior (s : RegistryState) (svc : String)
    (hkeys : (keysOf s.services).Nodup) :
    (dictLookup svc s.services = none →
      release_port s svc = (.notFound, s)) ∧
    (∀ rec, dictLookup svc s.services = some rec →
      (release_port s svc).1 = .released svc rec.port ∧
      (release_port s svc).2.next_available = s.next_available ∧
      dictLookup svc (release_port s svc).2.services = none ∧
      (∀ t, t ≠ svc →
        dictLookup t (release_port s svc).2.services = dictLookup t s.services) ∧
      (release_port (release_port s svc).2 svc).1 = .notFound) := by
  constructor
  · intro h
    simp [release_port, h]
  · intro rec h
    simp only [release_port, h]
    refine ⟨trivial, trivial, ?_, ?_, ?_⟩
    · exact dictLookup_remove_self svc s.services hkeys
    · intro t ht
      exact dictLookup_remove_ne t svc s.services ht
    · have h2 := dictLookup_remove_self svc s.services hkeys
      simp [release_port, h2]

theorem C9_release_behavior_witness :
    ((release_port exampleState "a").1 = .released "a" 8002 ∧
      (release_port exampleState "a").2.next_available = exampleState.next_available ∧
      dictLookup "a" (release_port exampleState "a").2.services = none ∧
      (∀ t, t ≠ "a" →
        dictLookup t (release_port exampleState "a").2.services =
          dictLookup t exampleState.services) ∧
      (release_port (release_port exampleState "a").2 "a").1 = .notFound) :=
  (C9_release_behavior exampleState "a" (by decide)).2 ⟨8002, "p", ""⟩ (by decide)

/-- C3 counterexample: with no record holding port 0 and the prober reporting
port 0 live, a request with `preferred_port = 0` does not fail with the
external-process CONFLICT the claim demands: Python truthiness routes the
zero preference to the unconstrained search, which assigns 8002. -/
theorem C3_counterexample :
    (request_port (fun q => decide (q = 0)) 2 ⟨[], some 8002⟩
        ⟨"b", "proj", "", some 0⟩).1 = some (.ok 8002 "b" true) ∧
    (request_port (fun q => decide (q = 0)) 2 ⟨[], some 8002⟩
        ⟨"b", "proj", "", some 0⟩).1 ≠ some (.conflictExternal 0) := by
  decide

/-- C3 (amended): for a nonzero preferred port `p` requested by an
unregistered service: if some record holds `p`, the call fails with the
CONFLICT naming that owning service and changes nothing; if no record holds
`p` but the prober reports it live, it fails with the ownerless external
CONFLICT and changes nothing; otherwise any response it returns assigns
exactly `p` and records it for the requesting service. -/
theorem C3_preferred_trichotomy (prober : Nat → Bool) (fuel : Nat)
    (s : RegistryState) (body : RequestBody) (p : Nat)
    (hp : body.preferred_port = some p) (hp0 : p ≠ 0)
    (hun : dictLookup body.service s.services = none) :
    (∀ owner, findOwner p s.services = some owner →
      request_port prober fuel s body = (some (.conflictOwned p owner), s) ∧
      ∃ rec, (owner, rec) ∈ s.services ∧ rec.port = p) ∧
    (findOwner p s.services = none → prober p = true →
      request_port prober fuel s body = (some (.conflictExternal p), s)) ∧
    (findOwner p s.services = none → prober p = false →
      ∀ r s2, request_port prober fuel s body = (some r, s2) →
        r = .ok p body.service true ∧
        dictLookup body.service s2.services =
          some ⟨p, body.project, body.description⟩) := by
  have heq := request_port_preferred_eq prober fuel s body p hp hp0 hun
  refine ⟨?_, ?_, ?_⟩
  · intro owner hown
    rw [heq, hown]
    exact ⟨rfl, findOwner_some_mem p owner s.services hown⟩
  · intro hown hlive
    rw [heq, hown]
    simp [hlive]
  · intro hown hlive r s2 hr
    rw [heq, hown] at hr
    rw [if_neg (by simp [hlive])] at hr
    have hreg := registerNew_some prober fuel s body p r s2 hr
    refine ⟨hreg.1, ?_⟩
    rw [hreg.2.1]
    exact dictLookup_insert_self _ _ _

theorem C3_preferred_trichotomy_witness :
    request_port allFree 1 exampleState ⟨"c", "q", "", some 8002⟩ =
      (some (.conflictOwned 8002 "a"), exampleState) :=
  ((C3_preferred_trichotomy allFree 1 exampleState ⟨"c", "q", "", some 8002⟩
      8002 rfl (by decide) (by decide)).1 "a" (by decide)).1

/-- C4 counterexample: a request whose service name is the empty string does
not fail and does register: on an empty registry it succeeds with port 8002
and stores a record under the key `""`. -/
theorem C4_counterexample :
    request_port allFree 2 ⟨[], some 8002⟩ ⟨"", "proj", "", none⟩ =
      (some (.ok 8002 "" true), ⟨[("", ⟨8002, "proj", ""⟩)], some 8003⟩) := by
  decide

/-- C4 (amended): `request_port` applies no emptiness check to the service
name: a call with `service = ""` is processed by the ordinary assignment
rules and registers a record keyed by the empty string, so record keys need
not be non-empty identifiers. -/
theorem C4_empty_service_accepted (proj desc : String) :
    request_port allFree 1 ⟨[], some 8002⟩ ⟨"", proj, desc, none⟩ =
      (some (.ok 8002 "" true), ⟨[("", ⟨8002, proj, desc⟩)], some 8003⟩) := rfl

/-- C5 counterexample: with a stored `next_available` hint of 5000 (below
8002) and nothing recorded or live, an unconstrained request returns 5000,
not a port at least 8002: the 8002 floor is only the default for an absent
hint, never a lower bound combined with a present one. -/
theorem C5_counterexample :
    request_port allFree 2 ⟨[], some 5000⟩ ⟨"a", "p", "", none⟩ =
      (some (.ok 5000 "a" true), ⟨[("a", ⟨5000, "p", ""⟩)], some 5001⟩) ∧
    5000 < 8002 := by
  decide

/-- C5 (amended): an unconstrained `request_port` (absent or zero preferred
port, unregistered service) that returns a response assigned the least port
that is no smaller than the stored `next_available` hint — defaulting to 8002 only
when the hint key is absent — and is neither recorded by another service nor
reported live by the prober. -/
theorem C5_unconstrained_search (prober : Nat → Bool) (fuel : Nat)
    (s : RegistryState) (body : RequestBody) (r : ReqResult) (s2 : RegistryState)
    (hpref : truthyOpt body.preferred_port = false)
    (hun : dictLookup body.service s.services = none)
    (h : request_port prober fuel s body = (some r, s2)) :
    ∃ p, r = .ok p body.service true ∧
      nextHint s ≤ p ∧ freePort prober s.services p = true ∧
      ∀ q, nextHint s ≤ q → q < p → freePort prober s.services q = false :=
  unconstrained_ok_char prober fuel s body r s2 hpref hun h

theorem C5_unconstrained_search_witness :
    ∃ p, (ReqResult.ok 5000 "a" true) = .ok p "a" true ∧
      nextHint ⟨[], some 5000⟩ ≤ p ∧
      freePort allFree ([] : List (String × AllocationRecord)) p = true ∧
      ∀ q, nextHint ⟨[], some 5000⟩ ≤ q → q < p →
        freePort allFree ([] : List (String × AllocationRecord)) q = false :=
  C5_unconstrained_search allFree 2 ⟨[], some 5000⟩ ⟨"a", "p", "", none⟩
    (.ok 5000 "a" true) ⟨[("a", ⟨5000, "p", ""⟩)], some 5001⟩
    (by decide) (by decide) (by decide)

/-- C6: when the stored `next_available` hint is present, an unconstrained
`request_port` for an unregistered service never returns a port below the
hint, and the returned port is recorded by no service and reported not live
by the prober at request time. -/
theorem C6_monotonic_search (prober : Nat → Bool) (fuel : Nat)
    (s : RegistryState) (body : RequestBody) (hintv p : Nat) (now : Bool)
    (s2 : RegistryState)
    (hhint : s.next_available = some hintv)
    (hpref : body.preferred_port = none)
    (hun : dictLookup body.service s.services = none)
    (h : request_port prober fuel s body = (some (.ok p body.service now), s2)) :
    hintv ≤ p ∧ freePort prober s.services p = true := by
  have hpf : truthyOpt body.preferred_port = false := by
    rw [hpref]; rfl
  obtain ⟨p2, hr, hle, hfree, -⟩ :=
    unconstrained_ok_char prober fuel s body (.ok p body.service now) s2 hpf hun h
  have hp2 : p2 = p := by
    cases hr
    rfl
  subst hp2
  have : nextHint s = hintv := by
    rw [nextHint, hhint]
    rfl
  rw [this] at hle
  exact ⟨hle, hfree⟩

theorem C6_monotonic_search_witness :
    8002 ≤ 8002 ∧ freePort allFree ([] : List (String × AllocationRecord)) 8002 = true :=
  C6_monotonic_search allFree 2 ⟨[], some 8002⟩ ⟨"api", "proj", "", none⟩
    8002 8002 true ⟨[("api", ⟨8002, "proj", ""⟩)], some 8003⟩
    rfl rfl (by decide) (by decide)

/-- C7: after a successful newly-assigning `request_port`
(`assigned_now = true`), the persisted state holds the new record with the
assigned port, and the persisted `next_available` is the lowest port
strictly greater than the assigned one that is neither held by any record of
the saved state nor reported live by the prober. -/
theorem C7_next_available_recompute (prober : Nat → Bool) (fuel : Nat)
    (s : RegistryState) (body : RequestBody) (p : Nat) (s2 : RegistryState)
    (h : request_port prober fuel s body = (some (.ok p body.service true), s2)) :
    dictLookup body.service s2.services =
      some ⟨p, body.project, body.description⟩ ∧
    ∃ nxt, s2.next_available = some nxt ∧ p < nxt ∧
      freePort prober s2.services nxt = true ∧
      ∀ q, p < q → q < nxt → freePort prober s2.services q = false := by
  obtain ⟨-, hcases⟩ :=
    request_port_ok_inv prober fuel s body p body.service true s2 h
  rcases hcases with ⟨rec, hlook, hp, hnow, hs⟩ | ⟨hun, -, hserv, nxt, hna, hsf⟩
  · exact absurd hnow (by simp)
  · constructor
    · rw [hserv]
      exact dictLookup_insert_self _ _ _
    · have h1 := searchFree_some prober (portsOf s2.services) (p + 1) fuel nxt hsf
      have h2 := searchFree_least prober (portsOf s2.services) (p + 1) fuel nxt hsf
      refine ⟨nxt, hna, h1.1, by simp [freePort, h1.2.1, h1.2.2], ?_⟩
      intro q hq1 hq2
      have hq := h2 q hq1 hq2
      cases hmem : memNat q (portsOf s2.services) <;>
        cases hpq : prober q <;> simp_all [freePort]

theorem C7_next_available_recompute_witness :
    (dictLookup "api" [("api", ⟨8002, "proj", ""⟩)] =
      some ⟨8002, "proj", ""⟩ ∧
    ∃ nxt, (some 8003 : Option Nat) = some nxt ∧ 8002 < nxt ∧
      freePort allFree [("api", ⟨8002, "proj", ""⟩)] nxt = true ∧
      ∀ q, 8002 < q → q < nxt →
        freePort allFree [("api", ⟨8002, "proj", ""⟩)] q = false) :=
  C7_next_available_recompute allFree 2 ⟨[], some 8002⟩
    ⟨"api", "proj", "", none⟩ 8002 ⟨[("api", ⟨8002, "proj", ""⟩)], some 8003⟩
    (by decide)

/-- C10 counterexample: a request with `preferred_port = 0` can assign port
0 after all: with a stored hint of 0 and nothing live, the unconstrained
search it falls into starts at 0 and returns it. -/
theorem C10_counterexample :
    request_port allFree 2 ⟨[], some 0⟩ ⟨"a", "p", "", some 0⟩ =
      (some (.ok 0 "a" true), ⟨[("a", ⟨0, "p", ""⟩)], some 1⟩) := by
  decide

/-- C10 (amended): a request with `preferred_port = 0` takes the
unconstrained-search branch — port 0 is never validated against the records
or the prober — and the call behaves exactly as if no preferred port had
been supplied; in particular the unconstrained search itself may still
assign port 0 when the stored hint is 0. -/
theorem C10_zero_preference_ignored (prober : Nat → Bool) (fuel : Nat)
    (s : RegistryState) (svc proj desc : String) :
    request_port prober fuel s ⟨svc, proj, desc, some 0⟩ =
      request_port prober fuel s ⟨svc, proj, desc, none⟩ := by
  cases h : dictLookup svc s.services with
  | some rec => simp [request_port, h]
  | none =>
    simp only [request_port, h, truthyOpt]
    cases hf : find_next_free prober fuel s none with
    | none => simp [hf]
    | some p => simp [hf, registerNew]
